import Mathlib

/-!
Shallow embedding of the TinyAudio CLI core (tinyaudio_cli.py): preset
catalog, size and bitrate parsing, duration probing, bitrate resolution,
filter-chain construction, output-path derivation, and the batch loop.
Python floats are modelled by exact rationals; Python `int()` truncation
by `pyTrunc`; option truthiness is modelled explicitly where the source
relies on it.
-/

deriving instance DecidableEq for Except

namespace TinyAudio

/-- Error taxonomy of the spec; all Python exceptions raised by the
embedded functions are mapped onto these constructors. -/
inductive AudioErr where
  | invalidSizeFormat
  | invalidBitrateFormat
  | probeFailure
  | invalidDuration
deriving DecidableEq, Repr

/-- Codec identifiers accepted by the CLI (argparse choices and preset values). -/
inductive Codec where
  | opus
  | aac
  | mp3
deriving DecidableEq, Repr

/-- Preset names in the PRESETS table. -/
inductive PresetName where
  | voice
  | music
  | podcast
deriving DecidableEq, Repr

/-- One entry of the PRESETS table. -/
structure Preset where
  samplerate : ℕ
  channels : ℕ
  bitrate_bps : ℕ
  codec : Codec
  lufs : Option ℚ
  highpass : Option ℤ
  lowpass : Option ℤ
deriving DecidableEq, Repr

/-- PRESETS entry for voice. -/
def voicePreset : Preset :=
  { samplerate := 24000, channels := 1, bitrate_bps := 32000, codec := Codec.opus,
    lufs := some (-16), highpass := some 80, lowpass := some 12000 }

/-- PRESETS entry for music. -/
def musicPreset : Preset :=
  { samplerate := 48000, channels := 2, bitrate_bps := 80000, codec := Codec.opus,
    lufs := some (-14), highpass := none, lowpass := none }

/-- PRESETS entry for podcast. -/
def podcastPreset : Preset :=
  { samplerate := 44100, channels := 1, bitrate_bps := 64000, codec := Codec.opus,
    lufs := some (-16), highpass := some 60, lowpass := some 15000 }

/-- Lookup in the PRESETS table by name. -/
def PRESETS : PresetName → Preset
  | PresetName.voice => voicePreset
  | PresetName.music => musicPreset
  | PresetName.podcast => podcastPreset

/-- The mutable args object, restricted to the fields read or written by
compress_audio and build_filterchain. -/
structure Args where
  preset : PresetName
  ts : Option ℕ
  b : Option String
  sr : Option ℕ
  ch : Option ℕ
  codec : Option Codec
  lufs : Option ℚ
  st : Bool
  sth : Option ℚ
  sd : Option ℚ
  hp : Option ℤ
  lp : Option ℤ
deriving DecidableEq, Repr

/-- Python truthiness of args.ts (None and 0 are falsy). -/
def tsTruthy (a : Args) : Bool :=
  match a.ts with
  | none => false
  | some n => if n = 0 then false else true

/-- Python truthiness of args.b (None and the empty string are falsy). -/
def bTruthy (a : Args) : Bool :=
  match a.b with
  | none => false
  | some s => if s = "" then false else true

/-- Python `x if x is not None else y` on options. -/
def firstSome {α : Type} (o d : Option α) : Option α :=
  match o with
  | some v => some v
  | none => d

/-- Python `int()` truncation toward zero on a rational. -/
def pyTrunc (q : ℚ) : ℤ :=
  if 0 ≤ q then q.floor else -(-q).floor

/-- Whitespace characters matched by the regex class backslash-s. -/
def isPySpace (c : Char) : Bool :=
  c = ' ' ∨ c = '\t' ∨ c = '\n' ∨ c = '\r' ∨ c = '\x0b' ∨ c = '\x0c'

/-- Decimal value of a digit list, as Python int() of the matched group. -/
def digitsToNat (cs : List Char) : ℕ :=
  cs.foldl (fun a c => a * 10 + (c.toNat - 48)) 0

/-- Characters matched by the size regex group one. -/
def isDigitOrDot (c : Char) : Bool :=
  c.isDigit ∨ c = '.'

/-- Python float() on a run of digits and dots: defined when it has at
least one digit and at most one dot. -/
def pyFloatOfRun (cs : List Char) : Option ℚ :=
  if cs.all Char.isDigit then
    if cs = [] then none else some (digitsToNat cs)
  else if cs.count '.' = 1 then
    let ip := cs.takeWhile (fun c => ¬ (c = '.'))
    let fp := (cs.dropWhile (fun c => ¬ (c = '.'))).tail
    if ip.all Char.isDigit ∧ fp.all Char.isDigit ∧ (ip ≠ [] ∨ fp ≠ []) then
      some ((digitsToNat ip : ℚ) + (digitsToNat fp : ℚ) / ((10 : ℚ) ^ fp.length))
    else none
  else none

/-- Unit group of the size regex: consumes an optional [KMG]?B unit
(case-insensitive) and returns its byte scale with the rest. -/
def parseUnitScale (cs : List Char) : ℕ × List Char :=
  match cs with
  | c :: d :: rest =>
    if (c = 'K' ∨ c = 'k') ∧ (d = 'B' ∨ d = 'b') then (1024, rest)
    else if (c = 'M' ∨ c = 'm') ∧ (d = 'B' ∨ d = 'b') then (1024 * 1024, rest)
    else if (c = 'G' ∨ c = 'g') ∧ (d = 'B' ∨ d = 'b') then (1024 * 1024 * 1024, rest)
    else if c = 'B' ∨ c = 'b' then (1, d :: rest)
    else (1, c :: d :: rest)
  | [c] => if c = 'B' ∨ c = 'b' then (1, []) else (1, [c])
  | [] => (1, [])

/-- human_to_bytes: parse a size string like 2.5MB into a byte count. -/
def human_to_bytes (s : String) : Except AudioErr ℕ :=
  let cs := s.data.dropWhile isPySpace
  let run := cs.takeWhile isDigitOrDot
  let rest := cs.dropWhile isDigitOrDot
  if run = [] then Except.error AudioErr.invalidSizeFormat
  else
    let rest1 := rest.dropWhile isPySpace
    let sr := parseUnitScale rest1
    let rest2 := sr.2.dropWhile isPySpace
    if rest2 = [] then
      match pyFloatOfRun run with
      | none => Except.error AudioErr.invalidSizeFormat
      | some v => Except.ok (pyTrunc (v * (sr.1 : ℚ))).toNat
    else Except.error AudioErr.invalidSizeFormat

/-- The bitrate regex of compress_audio: optional spaces, digits, optional
spaces, optional k or K, optional spaces; returns the digit group value. -/
def parseBitrate (s : String) : Option ℕ :=
  let cs := s.data.dropWhile isPySpace
  let ds := cs.takeWhile Char.isDigit
  let rest := cs.dropWhile Char.isDigit
  if ds = [] then none
  else
    let rest1 := rest.dropWhile isPySpace
    let rest2 :=
      match rest1 with
      | c :: tl => if c = 'k' ∨ c = 'K' then tl else c :: tl
      | [] => []
    let rest3 := rest2.dropWhile isPySpace
    if rest3 = [] then some (digitsToNat ds) else none

/-- Clamp of compute_bitrate_for_target_size: max(6000, min(br, 512000)). -/
def clampBr (x : ℤ) : ℤ :=
  max 6000 (min x 512000)

/-- compute_bitrate_for_target_size: bits available are target bytes
times eight times 0.97; divide by the duration and truncate, then clamp. -/
def compute_bitrate_for_target_size (target_bytes : ℕ) (duration_sec : ℚ) :
    Except AudioErr ℤ :=
  if duration_sec ≤ 0 then Except.error AudioErr.invalidDuration
  else Except.ok (clampBr (pyTrunc ((target_bytes : ℚ) * 8 * (97 / 100) / duration_sec)))

/-- Bitrate-source selection of compress_audio lines 234-243: a truthy
target size wins, else a truthy explicit bitrate string is parsed and
multiplied by 1000, else the preset default applies. -/
def resolveBitrate (a : Args) (p : Preset) (d : ℚ) : Except AudioErr ℤ :=
  if tsTruthy a then
    match a.ts with
    | some tb => compute_bitrate_for_target_size tb d
    | none => Except.ok (p.bitrate_bps : ℤ)
  else if bTruthy a then
    match a.b with
    | some s =>
      match parseBitrate s with
      | some n => Except.ok ((n : ℤ) * 1000)
      | none => Except.error AudioErr.invalidBitrateFormat
    | none => Except.ok (p.bitrate_bps : ℤ)
  else Except.ok (p.bitrate_bps : ℤ)

/-- Result of Python float() applied to a JSON duration field: a finite
rational, an infinity, a NaN, or a ValueError (bad). -/
inductive PyFloat where
  | fin (q : ℚ)
  | posInf
  | negInf
  | nan
  | bad
deriving DecidableEq, Repr

/-- One entry of the streams array in the probe output: whether its
codec_type is audio, and its duration field when present. -/
structure StreamInfo where
  isAudio : Bool
  duration : Option PyFloat
deriving DecidableEq, Repr

/-- Parsed JSON document produced by the probe: the format duration when
the format object carries one, and the streams array. -/
structure ProbeOutput where
  formatDuration : Option PyFloat
  streams : List StreamInfo
deriving DecidableEq, Repr

/-- The stream loop of ffprobe_duration: first stream whose codec_type is
audio and which has a duration field. -/
def firstAudioDuration : List StreamInfo → Option PyFloat
  | [] => none
  | s :: rest =>
    if s.isAudio ∧ s.duration.isSome then s.duration else firstAudioDuration rest

/-- Duration source selected by ffprobe_duration: the container-level
format duration when present, else the first audio stream's. -/
def selectedDur (o : ProbeOutput) : Option PyFloat :=
  firstSome o.formatDuration (firstAudioDuration o.streams)

/-- ffprobe_duration: fails when the tool exits non-zero, when its output
is not JSON, when no duration source is selected, when float() of the
selected source raises, or when the value is not finite; otherwise
returns the selected value (positivity is not checked). -/
def ffprobe_duration (exitCode : ℤ) (jsonOk : Bool) (o : ProbeOutput) :
    Except AudioErr ℚ :=
  if exitCode ≠ 0 then Except.error AudioErr.probeFailure
  else if jsonOk = false then Except.error AudioErr.probeFailure
  else
    match selectedDur o with
    | none => Except.error AudioErr.probeFailure
    | some PyFloat.bad => Except.error AudioErr.probeFailure
    | some PyFloat.posInf => Except.error AudioErr.probeFailure
    | some PyFloat.negInf => Except.error AudioErr.probeFailure
    | some PyFloat.nan => Except.error AudioErr.probeFailure
    | some (PyFloat.fin q) => Except.ok q

/-- Filter stages produced by build_filterchain, each with the numeric
parameters interpolated into its FFmpeg expression. -/
inductive Stage where
  | silenceremove (dur thr : ℚ)
  | highpass (f : ℤ)
  | lowpass (f : ℤ)
  | loudnorm (i : ℚ)
deriving DecidableEq, Repr

/-- Position of a stage in the fixed chain order. -/
def stageTag : Stage → ℕ
  | Stage.silenceremove _ _ => 0
  | Stage.highpass _ => 1
  | Stage.lowpass _ => 2
  | Stage.loudnorm _ => 3

/-- build_filterchain: silence trim when requested, high-pass and
low-pass when their resolved cutoff is truthy, loudness normalization
when a LUFS target resolves to a value. -/
def build_filterchain (a : Args) (p : Preset) : List Stage :=
  let l1 : List Stage :=
    if a.st then
      [Stage.silenceremove
        (match a.sd with
         | some v => v
         | none => if a.preset = PresetName.voice then (1 : ℚ) / 2 else (4 : ℚ) / 5)
        (match a.sth with
         | some v => v
         | none => if a.preset = PresetName.voice then -50 else -45)]
    else []
  let l2 : List Stage :=
    match firstSome a.hp p.highpass with
    | some v => if v = 0 then [] else [Stage.highpass v]
    | none => []
  let l3 : List Stage :=
    match firstSome a.lp p.lowpass with
    | some v => if v = 0 then [] else [Stage.lowpass v]
    | none => []
  let l4 : List Stage :=
    match firstSome a.lufs p.lufs with
    | some v => [Stage.loudnorm v]
    | none => []
  l1 ++ l2 ++ l3 ++ l4

/-- First low-pass stage of a chain, with its cutoff. -/
def chainLp : List Stage → Option ℤ
  | [] => none
  | Stage.lowpass v :: _ => some v
  | _ :: rest => chainLp rest

/-- The ultra-low-bitrate correction of compress_audio lines 245-247:
under the voice preset, a resolved bitrate at most 24000 with no explicit
low-pass sets args.lp to 8000 in place. -/
def adjustLp (a : Args) (br : ℤ) : Args :=
  if a.preset = PresetName.voice ∧ br ≤ 24000 ∧ a.lp = none then
    { a with lp := some 8000 }
  else a

/-- Per-file facts about the outside world that compress_audio observes:
input existence, input size, the probe invocation's outcome, and the
encoder invocation's outcome. -/
structure JobEnv where
  inputExists : Bool
  origSize : ℕ
  probeExit : ℤ
  probeJsonOk : Bool
  probeOut : ProbeOutput
  ffmpegExit : ℤ
  outputExistsAfter : Bool
deriving DecidableEq, Repr

/-- The probe call made for one job. -/
def probeOf (e : JobEnv) : Except AudioErr ℚ :=
  ffprobe_duration e.probeExit e.probeJsonOk e.probeOut

/-- Outcome of compress_audio on one file: its Boolean result, the args
object as possibly mutated, and, when reached, the resolved bitrate with
the constructed filter chain. -/
structure StepResult where
  ok : Bool
  args : Args
  trace : Option (ℤ × List Stage)
deriving DecidableEq, Repr

/-- compress_audio: missing input fails; a probe error, a bitrate
resolution error, or the zero-size division after a successful encode is
caught and fails; a non-zero encoder exit or a missing output fails;
otherwise the job succeeds.  The low-pass mutation happens after bitrate
resolution and survives in the returned args. -/
def compressOne (a : Args) (p : Preset) (e : JobEnv) : StepResult :=
  if e.inputExists = false then { ok := false, args := a, trace := none }
  else
    match probeOf e with
    | Except.error _ => { ok := false, args := a, trace := none }
    | Except.ok d =>
      match resolveBitrate a p d with
      | Except.error _ => { ok := false, args := a, trace := none }
      | Except.ok br =>
        let a1 := adjustLp a br
        let chain := build_filterchain a1 p
        if e.ffmpegExit ≠ 0 then { ok := false, args := a1, trace := some (br, chain) }
        else if e.outputExistsAfter then
          if e.origSize = 0 then { ok := false, args := a1, trace := some (br, chain) }
          else { ok := true, args := a1, trace := some (br, chain) }
        else { ok := false, args := a1, trace := some (br, chain) }

/-- Accumulated outcome of the batch loop of main. -/
structure BatchResult where
  succ : ℕ
  failed : ℕ
  args : Args
  traces : List (Option (ℤ × List Stage))
deriving DecidableEq, Repr

/-- The per-file loop of main lines 448-476, with the shared args object
threaded through each call. -/
def runBatch (a : Args) (p : Preset) : List JobEnv → BatchResult
  | [] => { succ := 0, failed := 0, args := a, traces := [] }
  | e :: rest =>
    let r := compressOne a p e
    let b := runBatch r.args p rest
    { succ := if r.ok then b.succ + 1 else b.succ,
      failed := if r.ok then b.failed else b.failed + 1,
      args := b.args,
      traces := r.trace :: b.traces }

/-- Terminal outcome of a run: a fatal exit before the loop, or a
completed loop with its success and failure tallies. -/
inductive RunOutcome where
  | fatal
  | completed (succ failed : ℕ)
deriving DecidableEq, Repr

/-- main lines 419-480 restricted to the claims' scope: a truthy target
size string (line 420: `if args.target_size:` - an empty string is falsy
and treated as absent) is parsed before the loop and any parse failure
exits the program; otherwise the loop runs over every discovered file. -/
def mainRun (rawTargetSize : Option String) (a : Args) (p : Preset)
    (envs : List JobEnv) : RunOutcome :=
  match rawTargetSize with
  | some s =>
    if s = "" then
      let r := runBatch { a with ts := none } p envs
      RunOutcome.completed r.succ r.failed
    else
      match human_to_bytes s with
      | Except.error _ => RunOutcome.fatal
      | Except.ok n =>
        let r := runBatch { a with ts := some n } p envs
        RunOutcome.completed r.succ r.failed
  | none =>
    let r := runBatch { a with ts := none } p envs
    RunOutcome.completed r.succ r.failed

/-- A filesystem path as compared by pathlib equality: parent directory,
stem, and extension. -/
structure FPath where
  dir : String
  stem : String
  ext : String
deriving DecidableEq, Repr

/-- Rendering of a path used when a path serves as an output directory. -/
def FPath.render (p : FPath) : String :=
  p.dir ++ p.stem ++ p.ext

/-- normalize_ext_for_codec. -/
def normalize_ext_for_codec : Codec → String
  | Codec.opus => ".opus"
  | Codec.aac => ".m4a"
  | Codec.mp3 => ".mp3"

/-- The three output-path branches of main lines 450-465: explicit
single-file output, output directory with derived name, or same-directory
derivation with optional suffix. -/
def deriveOutputPath (singleFile : Bool) (output : Option FPath)
    (outputIsDir : Bool) (sfx : String) (codec : Codec) (f : FPath) : FPath :=
  if singleFile ∧ output.isSome ∧ outputIsDir = false then output.getD f
  else if output.isSome ∧ outputIsDir then
    { dir := FPath.render (output.getD f), stem := f.stem,
      ext := normalize_ext_for_codec codec }
  else
    { dir := f.dir, stem := f.stem ++ sfx, ext := normalize_ext_for_codec codec }

/-- Output-path resolution including the collision guard of main lines
467-469: a derived path equal to the input is rewritten by appending
-compressed to the stem, keeping the input extension. -/
def resolveOutputPath (singleFile : Bool) (output : Option FPath)
    (outputIsDir : Bool) (sfx : String) (codec : Codec) (f : FPath) : FPath :=
  let op := deriveOutputPath singleFile output outputIsDir sfx codec f
  if op = f then { dir := f.dir, stem := f.stem ++ "-compressed", ext := f.ext }
  else op

/-- A job whose processing raises an exception inside the per-file try
block: a probe failure, a bitrate resolution failure, or the
division-by-zero on a zero-byte original after a successful encode. -/
def jobRaises (a : Args) (p : Preset) (e : JobEnv) : Bool :=
  e.inputExists &&
    (match probeOf e with
     | Except.error _ => true
     | Except.ok d =>
       match resolveBitrate a p d with
       | Except.error _ => true
       | Except.ok _ =>
         decide (e.ffmpegExit = 0) && e.outputExistsAfter && decide (e.origSize = 0))

/-- A job that compress_audio completes successfully. -/
def jobSucceeds (a : Args) (p : Preset) (e : JobEnv) : Bool :=
  e.inputExists &&
    (match probeOf e with
     | Except.error _ => false
     | Except.ok d =>
       match resolveBitrate a p d with
       | Except.error _ => false
       | Except.ok _ =>
         decide (e.ffmpegExit = 0) && e.outputExistsAfter && decide (¬ e.origSize = 0))

/-- Every reached filter chain in a trace list carries an 8000 Hz
low-pass stage. -/
def lpLockedB : List (Option (ℤ × List Stage)) → Bool
  | [] => true
  | none :: rest => lpLockedB rest
  | some brc :: rest => decide (chainLp brc.2 = some 8000) && lpLockedB rest

/-- Python truthiness of an optional integer cutoff. -/
def truthyZ : Option ℤ → Bool
  | none => false
  | some v => decide (¬ v = 0)

/-- The args object with every option at its argparse default under the
voice preset. -/
def baseArgs : Args :=
  { preset := PresetName.voice, ts := none, b := none, sr := none, ch := none,
    codec := none, lufs := none, st := false, sth := none, sd := none,
    hp := none, lp := none }

/-- Explicit bitrate string 600. -/
def s600 : String := "600"

/-- Explicit bitrate string 32. -/
def s32 : String := "32"

/-- Explicit bitrate string 1. -/
def s1 : String := "1"

/-- A malformed bitrate string. -/
def sXyz : String := "xyz"

/-- A malformed size string. -/
def sAbc : String := "abc"

/-- The empty output suffix. -/
def noSfx : String := ""

/-- Stem of the example input file. -/
def stemTrack : String := "track"

/-- Extension of the example input file. -/
def extWav : String := ".wav"

/-- Probe output with only a finite container-level duration. -/
def durFin (q : ℚ) : ProbeOutput :=
  { formatDuration := some (PyFloat.fin q), streams := [] }

/-- Probe output reporting a zero container-level duration. -/
def probeZero : ProbeOutput := durFin 0

/-- An environment in which everything about one job goes right and the
probe reports duration q. -/
def envOk (q : ℚ) : JobEnv :=
  { inputExists := true, origSize := 1000000, probeExit := 0, probeJsonOk := true,
    probeOut := durFin q, ffmpegExit := 0, outputExistsAfter := true }

/-- An environment in which the probe tool exits non-zero. -/
def envProbeFail : JobEnv :=
  { envOk 1 with probeExit := 1 }

/-- Args requesting explicit bitrate 600, resolving to 600000 bps. -/
def aC1 : Args := { baseArgs with b := some s600 }

/-- Args with a zero target size and explicit bitrate 32. -/
def aC2z : Args := { baseArgs with ts := some 0, b := some s32 }

/-- Args with target size 2500000 bytes and a competing explicit bitrate. -/
def aC2w : Args := { baseArgs with ts := some 2500000, b := some s1 }

/-- Args with a malformed explicit bitrate string. -/
def aC4 : Args := { baseArgs with b := some sXyz }

/-- Args with target size 100000 bytes under the voice preset. -/
def aC9 : Args := { baseArgs with ts := some 100000 }

/-- Explicit bitrate string 20. -/
def s20 : String := "20"

/-- Args requesting explicit bitrate 20, resolving to 20000 bps. -/
def aB20 : Args := { baseArgs with b := some s20 }

/-- Whether an Except value is a success. -/
def okB {ε α : Type} : Except ε α → Bool
  | Except.ok _ => true
  | Except.error _ => false

/-- Extension string of the opus codec. -/
def extOpus : String := ".opus"

/-- The example input file track.wav in some directory d. -/
def trackWav (d : String) : FPath :=
  { dir := d, stem := stemTrack, ext := extWav }

/-- Explicit bitrate string 32k. -/
def s32k : String := "32k"

/-- Args requesting bitrate via the bare string 32. -/
def aB32 : Args := { baseArgs with b := some s32 }

/-- Args requesting bitrate via the suffixed string 32k. -/
def aB32k : Args := { baseArgs with b := some s32k }

theorem pyTrunc_of_nonneg (q : ℚ) (h : 0 ≤ q) : pyTrunc q = ⌊q⌋ := by
  rw [pyTrunc, if_pos h, Rat.floor_def', Rat.floor_def]

theorem clampBr_mem (x : ℤ) : 6000 ≤ clampBr x ∧ clampBr x ≤ 512000 := by
  refine ⟨le_max_left _ _, max_le (by norm_num) (min_le_right _ _)⟩

theorem resolveBitrate_ts (a : Args) (p : Preset) (d : ℚ) (tb : ℕ)
    (h : a.ts = some tb) (h0 : ¬ tb = 0) :
    resolveBitrate a p d = compute_bitrate_for_target_size tb d := by
  have ht : tsTruthy a = true := by simp [tsTruthy, h, h0]
  simp [resolveBitrate, ht, h]

theorem resolveBitrate_notTs (a : Args) (p : Preset) (d : ℚ)
    (h : tsTruthy a = false) (s : String) (hb : a.b = some s) (hs : ¬ s = "") :
    resolveBitrate a p d =
      match parseBitrate s with
      | some n => Except.ok ((n : ℤ) * 1000)
      | none => Except.error AudioErr.invalidBitrateFormat := by
  have hbt : bTruthy a = true := by simp [bTruthy, hb, hs]
  simp [resolveBitrate, h, hbt, hb]

theorem resolveBitrate_default (a : Args) (p : Preset) (d : ℚ)
    (h : tsTruthy a = false) (hb : bTruthy a = false) :
    resolveBitrate a p d = Except.ok (p.bitrate_bps : ℤ) := by
  simp [resolveBitrate, h, hb]

/-- C1 (amended): a bitrate resolved from a target size or from the
preset default always lies within [6000, 512000] bits/sec; the claim as
stated fails because an explicit bitrate string is multiplied by 1000
without any clamping and can fall outside the interval. -/
theorem bitrate_clamped_c1 (a : Args) (p : Preset) (d : ℚ) (br : ℤ)
    (hp : p = voicePreset ∨ p = musicPreset ∨ p = podcastPreset)
    (hsrc : tsTruthy a = true ∨ bTruthy a = false)
    (hres : resolveBitrate a p d = Except.ok br) :
    6000 ≤ br ∧ br ≤ 512000 := by
  by_cases hts : tsTruthy a = true
  · cases hts2 : a.ts with
    | none => rw [tsTruthy, hts2] at hts; exact absurd hts (by simp)
    | some tb =>
      have h0 : ¬ tb = 0 := by
        intro h
        subst h
        rw [tsTruthy, hts2] at hts
        simp at hts
      rw [resolveBitrate_ts a p d tb hts2 h0, compute_bitrate_for_target_size] at hres
      by_cases hd : d ≤ 0
      · rw [if_pos hd] at hres; exact absurd hres (by simp)
      · rw [if_neg hd] at hres
        injection hres with hbr
        rw [← hbr]
        exact clampBr_mem _
  · have hbf : bTruthy a = false := by
      cases hsrc with
      | inl h => exact absurd h hts
      | inr h => exact h
    have htsf : tsTruthy a = false := by
      cases h : tsTruthy a
      · rfl
      · exact absurd h hts
    rw [resolveBitrate_default a p d htsf hbf] at hres
    injection hres with hbr
    rw [← hbr]
    rcases hp with rfl | rfl | rfl <;> exact ⟨by decide, by decide⟩

/-- C1 counterexample: explicit bitrate string 600 resolves to 600000
bits/sec, strictly above the claimed upper bound 512000. -/
theorem bitrate_clamped_c1_cex :
    resolveBitrate aC1 voicePreset 1 = Except.ok 600000 ∧
    ¬ (600000 : ℤ) ≤ 512000 := by
  exact ⟨by decide, by decide⟩

/-- C1 witness: the preset-default source under the voice preset resolves
to 32000 bits/sec, inside the interval. -/
theorem bitrate_clamped_c1_wit :
    (voicePreset = voicePreset ∨ voicePreset = musicPreset ∨ voicePreset = podcastPreset) ∧
    (tsTruthy baseArgs = true ∨ bTruthy baseArgs = false) ∧
    resolveBitrate baseArgs voicePreset 1 = Except.ok 32000 ∧
    (6000 ≤ (32000 : ℤ) ∧ (32000 : ℤ) ≤ 512000) := by
  refine ⟨Or.inl rfl, Or.inr (by decide), by decide, ?_⟩
  exact bitrate_clamped_c1 baseArgs voicePreset 1 32000 (Or.inl rfl)
    (Or.inr (by decide)) (by decide)

/-- C2 (amended): with positive duration, a nonzero target size resolves
the bitrate to the truncated value of target bytes times eight times 0.97
over the duration, clamped, and this wins over any explicit bitrate; a
zero target size is treated as absent — the claim as stated fails there;
otherwise a parseable explicit bitrate wins over the preset default. -/
theorem bitrate_precedence_c2 (a : Args) (p : Preset) (d : ℚ) (hd : 0 < d) :
    (∀ tb : ℕ, a.ts = some tb → ¬ tb = 0 →
      resolveBitrate a p d =
        Except.ok (clampBr (pyTrunc ((tb : ℚ) * 8 * (97 / 100) / d)))) ∧
    (tsTruthy a = false → ∀ (s : String) (n : ℕ), a.b = some s → parseBitrate s = some n →
      resolveBitrate a p d = Except.ok ((n : ℤ) * 1000)) ∧
    (tsTruthy a = false → bTruthy a = false →
      resolveBitrate a p d = Except.ok (p.bitrate_bps : ℤ)) := by
  refine ⟨?_, ?_, ?_⟩
  · intro tb hts h0
    rw [resolveBitrate_ts a p d tb hts h0, compute_bitrate_for_target_size,
      if_neg (not_le.mpr hd)]
  · intro htsf s n hb hn
    have hs : ¬ s = "" := by
      intro h
      rw [h] at hn
      have he : parseBitrate "" = none := rfl
      rw [he] at hn
      exact Option.noConfusion hn
    rw [resolveBitrate_notTs a p d htsf s hb hs, hn]
  · intro htsf hbf
    exact resolveBitrate_default a p d htsf hbf

/-- C2 counterexample: a target size of 0 bytes is supplied together with
explicit bitrate 32; the explicit bitrate wins (32000 bps), not the
target-size-derived clamped value 6000 bps. -/
theorem bitrate_precedence_c2_cex :
    aC2z.ts = some 0 ∧
    resolveBitrate aC2z voicePreset 300 = Except.ok 32000 ∧
    clampBr (pyTrunc ((0 : ℕ) * 8 * (97 / 100) / 300 : ℚ)) = 6000 ∧
    ¬ (32000 : ℤ) = 6000 := by
  refine ⟨rfl, by decide, ?_, by decide⟩
  have h0 : (((0 : ℕ) : ℚ) * 8 * (97 / 100) / 300 : ℚ) = 0 := by norm_num
  rw [h0, pyTrunc_of_nonneg 0 le_rfl, Int.floor_zero]
  decide

/-- C2 witness: target size 2500000 bytes with duration 300 s resolves to
64666 bps, overriding the competing explicit bitrate string. -/
theorem bitrate_precedence_c2_wit :
    (0 : ℚ) < 300 ∧ aC2w.ts = some 2500000 ∧ aC2w.b = some s1 ∧
    resolveBitrate aC2w voicePreset 300 = Except.ok 64666 := by
  refine ⟨by norm_num, rfl, rfl, ?_⟩
  have h := (bitrate_precedence_c2 aC2w voicePreset 300 (by norm_num)).1 2500000 rfl
    (by decide)
  rw [h]
  have e1 : ((2500000 : ℕ) : ℚ) * 8 * (97 / 100) / 300 = 194000 / 3 := by norm_num
  have e2 : ⌊(194000 / 3 : ℚ)⌋ = 64666 := by norm_num
  rw [e1, pyTrunc_of_nonneg _ (by norm_num), e2]
  decide

/-- C3 (amended): duration probing fails exactly when the external tool
exits non-zero, its output is not parseable JSON, or the selected
duration source (container-level first, else first audio stream) is
absent, unparseable, or non-finite; a returned duration is the selected
value.  The claim as stated fails because a non-positive parsed duration
is returned, not rejected. -/
theorem probe_failure_c3 (ec : ℤ) (jok : Bool) (o : ProbeOutput) :
    (okB (ffprobe_duration ec jok o) = false ↔
      (¬ ec = 0 ∨ jok = false ∨ ∀ q : ℚ, ¬ selectedDur o = some (PyFloat.fin q))) ∧
    (∀ q : ℚ, ffprobe_duration ec jok o = Except.ok q →
      selectedDur o = some (PyFloat.fin q)) := by
  by_cases hec : ec = 0 <;> cases jok <;>
    rcases hsel : selectedDur o with _ | f <;>
    first
      | (cases f <;> simp [ffprobe_duration, okB, hec, hsel])
      | simp [ffprobe_duration, okB, hec, hsel]

/-- C3 counterexample: a probe whose container-level duration parses to 0
succeeds and returns 0, although the claim requires failure on a
non-positive duration. -/
theorem probe_failure_c3_cex :
    ffprobe_duration 0 true probeZero = Except.ok 0 ∧ ¬ (0 : ℚ) > 0 := by
  exact ⟨by decide, by norm_num⟩

/-- C3 witness: a finite container-level duration of 300 s is returned
and is the selected source. -/
theorem probe_failure_c3_wit :
    ffprobe_duration 0 true (durFin 300) = Except.ok 300 ∧
    selectedDur (durFin 300) = some (PyFloat.fin 300) := by
  exact ⟨by decide, (probe_failure_c3 0 true (durFin 300)).2 300 (by decide)⟩

theorem chainLp_append (xs ys : List Stage) :
    chainLp (xs ++ ys) =
      match chainLp xs with
      | some v => some v
      | none => chainLp ys := by
  induction xs with
  | nil => simp [chainLp]
  | cons x t ih => cases x <;> simp [chainLp, ih]

theorem chainLp_build (a : Args) (p : Preset) :
    chainLp (build_filterchain a p) =
      match firstSome a.lp p.lowpass with
      | some v => if v = 0 then none else some v
      | none => none := by
  rw [build_filterchain]
  cases hst : a.st <;>
    rcases hhp : firstSome a.hp p.highpass with _ | hv <;>
    rcases hlp : firstSome a.lp p.lowpass with _ | lv <;>
    rcases hlu : firstSome a.lufs p.lufs with _ | uv <;>
    simp [chainLp_append, chainLp] <;>
    split_ifs <;>
    simp [chainLp_append, chainLp]

/-- C5: for a single job under the voice preset with no explicit
low-pass override, the filter chain's low-pass cutoff is 8000 Hz when
the resolved bitrate is at most 24000 bits/sec and the preset default
12000 Hz otherwise. -/
theorem voice_lowpass_c5 (a : Args) (br : ℤ)
    (h1 : a.preset = PresetName.voice) (h2 : a.lp = none) :
    chainLp (build_filterchain (adjustLp a br) voicePreset) =
      some (if br ≤ 24000 then 8000 else 12000) := by
  by_cases hbr : br ≤ 24000
  · have ha : adjustLp a br = { a with lp := some 8000 } := by
      rw [adjustLp, if_pos ⟨h1, hbr, h2⟩]
    rw [ha, if_pos hbr, chainLp_build]
    simp [firstSome]
  · have ha : adjustLp a br = a := by
      rw [adjustLp, if_neg]
      intro h
      exact hbr h.2.1
    rw [ha, if_neg hbr, chainLp_build, h2]
    simp [firstSome, voicePreset]

/-- C5 witness: resolved bitrate 20000 under the voice preset with no
explicit low-pass yields an 8000 Hz low-pass cutoff. -/
theorem voice_lowpass_c5_wit :
    baseArgs.preset = PresetName.voice ∧ baseArgs.lp = none ∧
    chainLp (build_filterchain (adjustLp baseArgs 20000) voicePreset) =
      some (if (20000 : ℤ) ≤ 24000 then 8000 else 12000) := by
  exact ⟨rfl, rfl, voice_lowpass_c5 baseArgs 20000 rfl rfl⟩

/-- C6: for every combination of options the filter chain's stages appear
in the fixed order silence-trim, high-pass, low-pass, loudness
normalization (its tag list is a sublist of [0, 1, 2, 3]), and the chain
is empty exactly when no stage is enabled. -/
theorem chain_order_c6 (a : Args) (p : Preset) :
    List.Sublist ((build_filterchain a p).map stageTag) [0, 1, 2, 3] ∧
    (build_filterchain a p = [] ↔
      (a.st = false ∧ truthyZ (firstSome a.hp p.highpass) = false ∧
       truthyZ (firstSome a.lp p.lowpass) = false ∧
       firstSome a.lufs p.lufs = none)) := by
  rw [build_filterchain]
  cases hst : a.st <;>
    rcases hhp : firstSome a.hp p.highpass with _ | hv <;>
    rcases hlp : firstSome a.lp p.lowpass with _ | lv <;>
    rcases hlu : firstSome a.lufs p.lufs with _ | uv <;>
    simp [truthyZ, stageTag] <;>
    split_ifs <;>
    simp_all [stageTag]

/-- C6 witness: the theorem applied to the default options under the
music preset, whose chain is the single loudness-normalization stage. -/
theorem chain_order_c6_wit :
    List.Sublist ((build_filterchain baseArgs musicPreset).map stageTag) [0, 1, 2, 3] ∧
    (build_filterchain baseArgs musicPreset = [] ↔
      (baseArgs.st = false ∧ truthyZ (firstSome baseArgs.hp musicPreset.highpass) = false ∧
       truthyZ (firstSome baseArgs.lp musicPreset.lowpass) = false ∧
       firstSome baseArgs.lufs musicPreset.lufs = none)) := by
  exact chain_order_c6 baseArgs musicPreset

theorem stem_append_ne (s t : String) (h : ¬ t = "") : ¬ s ++ t = s := by
  intro he
  have hl := congrArg String.length he
  rw [String.length_append] at hl
  have ht : t.length = 0 := by omega
  exact h (String.ext (List.length_eq_zero.mp ht))

/-- C7: in every output mode the resolved output path differs from the
input path - a collision is rewritten by appending -compressed to the
stem before the extension - and track.wav with no explicit output and no
suffix under the opus codec of the voice preset yields track.opus. -/
theorem output_path_c7 :
    (∀ (sf : Bool) (o : Option FPath) (oid : Bool) (sfx : String) (c : Codec) (f : FPath),
      ¬ resolveOutputPath sf o oid sfx c f = f) ∧
    (∀ d : String, resolveOutputPath true none false noSfx Codec.opus (trackWav d) =
      { dir := d, stem := stemTrack, ext := extOpus }) := by
  constructor
  · intro sf o oid sfx c f
    rw [resolveOutputPath]
    by_cases h : deriveOutputPath sf o oid sfx c f = f
    · rw [if_pos h]
      intro he
      have hstem := congrArg FPath.stem he
      exact stem_append_ne f.stem "-compressed" (by decide) hstem
    · rw [if_neg h]
      exact h
  · intro d
    have hd : deriveOutputPath true none false noSfx Codec.opus (trackWav d) =
        { dir := d, stem := stemTrack, ext := extOpus } := by
      rw [deriveOutputPath]
      simp [trackWav, normalize_ext_for_codec, noSfx, extOpus]
    rw [resolveOutputPath, hd, if_neg]
    intro he
    have := congrArg FPath.ext he
    simp [trackWav, extOpus, extWav] at this

/-- C7 witness: the theorem applied to the example file. -/
theorem output_path_c7_wit :
    ¬ resolveOutputPath true none false noSfx Codec.opus (trackWav noSfx) = trackWav noSfx := by
  exact output_path_c7.1 true none false noSfx Codec.opus (trackWav noSfx)

theorem runBatch_badBitrate (p : Preset) (str : String) (hne : ¬ str = "")
    (hpn : parseBitrate str = none) :
    ∀ (envs : List JobEnv) (a : Args), a.ts = none → a.b = some str →
    (∀ x ∈ envs, x.inputExists = true ∧ okB (probeOf x) = true) →
    runBatch a p envs = { succ := 0, failed := envs.length, args := a,
                          traces := List.replicate envs.length none } := by
  intro envs
  induction envs with
  | nil => intro a _ _ _; simp [runBatch]
  | cons e rest ih =>
    intro a hts hb henv
    have he := henv e (by simp)
    have hco : compressOne a p e = { ok := false, args := a, trace := none } := by
      cases hpe : probeOf e with
      | error err => simp [compressOne, he.1, hpe]
      | ok dd =>
        have hrb : resolveBitrate a p dd = Except.error AudioErr.invalidBitrateFormat := by
          rw [resolveBitrate_notTs a p dd (by simp [tsTruthy, hts]) str hb hne, hpn]
        simp [compressOne, he.1, hpe, hrb]
    rw [runBatch]
    simp only [hco]
    rw [ih a hts hb (fun x hx => henv x (by simp [hx]))]
    simp [List.replicate_succ]

/-- C4 (amended): a malformed nonempty target-size string is fatal to
the whole run (the program exits before any file is processed; an empty
string is falsy and treated as absent), but a malformed explicit-bitrate
string is not: it is caught per file, every file fails, and the run
completes with a full failure tally. -/
theorem fatal_options_c4 (s : String) (a : Args) (p : Preset) (envs : List JobEnv)
    (hsne : ¬ s = "")
    (hs : okB (human_to_bytes s) = false)
    (hb : ∃ str, a.b = some str ∧ ¬ str = "" ∧ parseBitrate str = none)
    (henv : ∀ x ∈ envs, x.inputExists = true ∧ okB (probeOf x) = true) :
    mainRun (some s) a p envs = RunOutcome.fatal ∧
    mainRun none a p envs = RunOutcome.completed 0 envs.length := by
  constructor
  · cases hh : human_to_bytes s with
    | error err => simp [mainRun, hsne, hh]
    | ok n => rw [hh] at hs; simp [okB] at hs
  · obtain ⟨str, hbs, hne, hpn⟩ := hb
    rw [mainRun]
    rw [runBatch_badBitrate p str hne hpn envs { a with ts := none } rfl
      (by simp [hbs]) henv]

/-- C4 counterexample: a malformed explicit bitrate does not terminate
the run - a two-file batch completes with 0 successes and 2 failures. -/
theorem fatal_options_c4_cex :
    mainRun none aC4 voicePreset [envOk 10, envOk 10] = RunOutcome.completed 0 2 ∧
    ¬ RunOutcome.completed 0 2 = RunOutcome.fatal := by
  exact ⟨by decide, by decide⟩

/-- C4 witness: the malformed nonempty size string abc is fatal, while
the malformed bitrate string xyz yields a completed one-file run with
one failure. -/
theorem fatal_options_c4_wit :
    ¬ sAbc = "" ∧
    okB (human_to_bytes sAbc) = false ∧
    mainRun (some sAbc) aC4 voicePreset [envOk 10] = RunOutcome.fatal ∧
    mainRun none aC4 voicePreset [envOk 10] = RunOutcome.completed 0 1 := by
  have h := fatal_options_c4 sAbc aC4 voicePreset [envOk 10] (by decide) (by decide)
    ⟨sXyz, rfl, by decide, by decide⟩ (by decide)
  exact ⟨by decide, by decide, h.1, h.2⟩

theorem resolveBitrate_core (a a' : Args) (p : Preset) (d : ℚ)
    (h1 : a'.ts = a.ts) (h2 : a'.b = a.b) :
    resolveBitrate a' p d = resolveBitrate a p d := by
  simp [resolveBitrate, tsTruthy, bTruthy, h1, h2]

theorem jobSucceeds_core (a a' : Args) (p : Preset) (e : JobEnv)
    (h1 : a'.ts = a.ts) (h2 : a'.b = a.b) :
    jobSucceeds a' p e = jobSucceeds a p e := by
  have hres : ∀ d : ℚ, resolveBitrate a' p d = resolveBitrate a p d :=
    fun d => resolveBitrate_core a a' p d h1 h2
  simp only [jobSucceeds, hres]

theorem jobRaises_core (a a' : Args) (p : Preset) (e : JobEnv)
    (h1 : a'.ts = a.ts) (h2 : a'.b = a.b) :
    jobRaises a' p e = jobRaises a p e := by
  have hres : ∀ d : ℚ, resolveBitrate a' p d = resolveBitrate a p d :=
    fun d => resolveBitrate_core a a' p d h1 h2
  simp only [jobRaises, hres]

theorem compressOne_preserves (a : Args) (p : Preset) (e : JobEnv) :
    (compressOne a p e).args = a ∨ (compressOne a p e).args = { a with lp := some 8000 } := by
  have hadj : ∀ br : ℤ, adjustLp a br = a ∨ adjustLp a br = { a with lp := some 8000 } := by
    intro br
    rw [adjustLp]
    by_cases hc : a.preset = PresetName.voice ∧ br ≤ 24000 ∧ a.lp = none
    · rw [if_pos hc]; exact Or.inr rfl
    · rw [if_neg hc]; exact Or.inl rfl
  rw [compressOne]
  split
  · exact Or.inl rfl
  · split
    · exact Or.inl rfl
    · split
      · exact Or.inl rfl
      · split_ifs <;> exact hadj _

theorem compressOne_core (a : Args) (p : Preset) (e : JobEnv) :
    ((compressOne a p e).args).ts = a.ts ∧ ((compressOne a p e).args).b = a.b := by
  rcases compressOne_preserves a p e with h | h <;> rw [h] <;> exact ⟨rfl, rfl⟩

theorem compressOne_ok_of_succeeds (a : Args) (p : Preset) (e : JobEnv)
    (h : jobSucceeds a p e = true) :
    (compressOne a p e).ok = true := by
  rw [jobSucceeds] at h
  cases hex : e.inputExists with
  | false => rw [hex] at h; simp at h
  | true =>
    rw [hex, Bool.true_and] at h
    cases hpe : probeOf e with
    | error err => rw [hpe] at h; simp at h
    | ok d =>
      rw [hpe] at h
      cases hrb : resolveBitrate a p d with
      | error err => simp [hrb] at h
      | ok br =>
        simp only [hrb, Bool.and_eq_true, decide_eq_true_eq] at h
        obtain ⟨⟨hff, hoe⟩, hsz⟩ := h
        simp [compressOne, hex, hpe, hrb, hff, hoe, hsz]

theorem compressOne_notok_of_raises (a : Args) (p : Preset) (e : JobEnv)
    (h : jobRaises a p e = true) :
    (compressOne a p e).ok = false := by
  rw [jobRaises] at h
  cases hex : e.inputExists with
  | false => rw [hex] at h; simp at h
  | true =>
    rw [hex, Bool.true_and] at h
    cases hpe : probeOf e with
    | error err => simp [compressOne, hex, hpe]
    | ok d =>
      rw [hpe] at h
      cases hrb : resolveBitrate a p d with
      | error err => simp [compressOne, hex, hpe, hrb]
      | ok br =>
        simp only [hrb, Bool.and_eq_true, decide_eq_true_eq] at h
        obtain ⟨⟨hff, hoe⟩, hsz⟩ := h
        simp [compressOne, hex, hpe, hrb, hff, hoe, hsz]

theorem runBatch_allSucceed (p : Preset) : ∀ (xs : List JobEnv) (a : Args),
    (∀ x ∈ xs, jobSucceeds a p x = true) →
    (runBatch a p xs).succ = xs.length ∧ (runBatch a p xs).failed = 0 := by
  intro xs
  induction xs with
  | nil => intro a _; exact ⟨rfl, rfl⟩
  | cons x t ih =>
    intro a h
    have hok := compressOne_ok_of_succeeds a p x (h x (by simp))
    have hc := compressOne_core a p x
    have hnext : ∀ y ∈ t, jobSucceeds (compressOne a p x).args p y = true := by
      intro y hy
      rw [jobSucceeds_core a (compressOne a p x).args p y hc.1 hc.2]
      exact h y (by simp [hy])
    obtain ⟨hs, hf⟩ := ih (compressOne a p x).args hnext
    constructor <;> simp [runBatch, hok, hs, hf]

theorem runBatch_core (p : Preset) : ∀ (xs : List JobEnv) (a : Args),
    ((runBatch a p xs).args).ts = a.ts ∧ ((runBatch a p xs).args).b = a.b := by
  intro xs
  induction xs with
  | nil => intro a; exact ⟨rfl, rfl⟩
  | cons x t ih =>
    intro a
    have hc := compressOne_core a p x
    have ht := ih (compressOne a p x).args
    rw [runBatch]
    exact ⟨ht.1.trans hc.1, ht.2.trans hc.2⟩

/-- C8: in a batch in which every file before and after a given one fully
succeeds and that one file's processing raises an exception, all files
are still processed and the final tally reports exactly one failure. -/
theorem batch_isolation_c8 (a : Args) (p : Preset) (pre post : List JobEnv) (e : JobEnv)
    (hpre : ∀ x ∈ pre, jobSucceeds a p x = true)
    (hpost : ∀ x ∈ post, jobSucceeds a p x = true)
    (he : jobRaises a p e = true) :
    (runBatch a p (pre ++ e :: post)).succ = pre.length + post.length ∧
    (runBatch a p (pre ++ e :: post)).failed = 1 := by
  induction pre generalizing a with
  | nil =>
    have hok := compressOne_notok_of_raises a p e he
    have hc := compressOne_core a p e
    have hnext : ∀ y ∈ post, jobSucceeds (compressOne a p e).args p y = true := by
      intro y hy
      rw [jobSucceeds_core a (compressOne a p e).args p y hc.1 hc.2]
      exact hpost y hy
    obtain ⟨hs, hf⟩ := runBatch_allSucceed p post (compressOne a p e).args hnext
    constructor <;> simp [runBatch, hok, hs, hf]
  | cons x t ih =>
    have hok := compressOne_ok_of_succeeds a p x (hpre x (by simp))
    have hc := compressOne_core a p x
    have hpre2 : ∀ y ∈ t, jobSucceeds (compressOne a p x).args p y = true := by
      intro y hy
      rw [jobSucceeds_core a (compressOne a p x).args p y hc.1 hc.2]
      exact hpre y (by simp [hy])
    have hpost2 : ∀ y ∈ post, jobSucceeds (compressOne a p x).args p y = true := by
      intro y hy
      rw [jobSucceeds_core a (compressOne a p x).args p y hc.1 hc.2]
      exact hpost y hy
    have he2 : jobRaises (compressOne a p x).args p e = true := by
      rw [jobRaises_core a (compressOne a p x).args p e hc.1 hc.2]
      exact he
    obtain ⟨hs, hf⟩ := ih (compressOne a p x).args hpre2 hpost2 he2
    constructor <;> simp [runBatch, hok, hs, hf] <;> omega

/-- C8 witness: a three-file batch whose middle file fails to probe
yields 2 successes and exactly 1 failure. -/
theorem batch_isolation_c8_wit :
    (∀ x ∈ [envOk 1], jobSucceeds baseArgs voicePreset x = true) ∧
    (∀ x ∈ [envOk 2], jobSucceeds baseArgs voicePreset x = true) ∧
    jobRaises baseArgs voicePreset envProbeFail = true ∧
    (runBatch baseArgs voicePreset ([envOk 1] ++ envProbeFail :: [envOk 2])).succ = 2 ∧
    (runBatch baseArgs voicePreset ([envOk 1] ++ envProbeFail :: [envOk 2])).failed = 1 := by
  have h := batch_isolation_c8 baseArgs voicePreset [envOk 1] [envOk 2] envProbeFail
    (by decide) (by decide) (by decide)
  exact ⟨by decide, by decide, by decide, h.1, h.2⟩

theorem adjustLp_of_lp8000 (a : Args) (br : ℤ) (h : a.lp = some 8000) :
    adjustLp a br = a := by
  rw [adjustLp, if_neg]
  intro hc
  rw [h] at hc
  exact Option.noConfusion hc.2.2

theorem chainLp_build_lp8000 (a : Args) (p : Preset) (h : a.lp = some 8000) :
    chainLp (build_filterchain a p) = some 8000 := by
  rw [chainLp_build, h]
  simp [firstSome]

theorem compressOne_lp8000 (a : Args) (p : Preset) (e : JobEnv) (h : a.lp = some 8000) :
    (compressOne a p e).args.lp = some 8000 ∧
    (∀ brc : ℤ × List Stage, (compressOne a p e).trace = some brc →
      chainLp brc.2 = some 8000) := by
  rw [compressOne]
  split
  · exact ⟨h, fun brc hb => Option.noConfusion hb⟩
  · split
    · exact ⟨h, fun brc hb => Option.noConfusion hb⟩
    · split
      · exact ⟨h, fun brc hb => Option.noConfusion hb⟩
      · rename_i dd br heq
        have ha : adjustLp a br = a := adjustLp_of_lp8000 a br h
        split_ifs <;>
          exact ⟨by rw [ha]; exact h,
            fun brc hb => by
              obtain rfl : (br, build_filterchain (adjustLp a br) p) = brc :=
                Option.some.inj hb
              rw [ha]
              exact chainLp_build_lp8000 a p h⟩

theorem runBatch_lp8000 (p : Preset) : ∀ (xs : List JobEnv) (a : Args),
    a.lp = some 8000 → lpLockedB (runBatch a p xs).traces = true := by
  intro xs
  induction xs with
  | nil => intro a _; rfl
  | cons x t ih =>
    intro a h
    obtain ⟨hargs, htr⟩ := compressOne_lp8000 a p x h
    rw [runBatch]
    cases htc : (compressOne a p x).trace with
    | none => simp only [htc, lpLockedB]; exact ih _ hargs
    | some brc =>
      simp only [htc, lpLockedB, Bool.and_eq_true, decide_eq_true_eq]
      exact ⟨htr brc htc, ih _ hargs⟩

/-- C9: in a batch run with the shared options object under the voice
preset and no explicit low-pass, once one file's resolved bitrate is at
most 24000 bits/sec the mutated low-pass option persists, so every
subsequent file whose filter chain is constructed gets an 8000 Hz
low-pass, whatever its own resolved bitrate. -/
theorem lowpass_frame_c9 (a : Args) (p : Preset) (e : JobEnv) (rest : List JobEnv)
    (d : ℚ) (br : ℤ)
    (hv : a.preset = PresetName.voice) (hlp : a.lp = none)
    (hex : e.inputExists = true)
    (hpd : probeOf e = Except.ok d)
    (hbr : resolveBitrate a p d = Except.ok br)
    (h24 : br ≤ 24000) :
    (compressOne a p e).args.lp = some 8000 ∧
    lpLockedB (runBatch (compressOne a p e).args p rest).traces = true := by
  have hargs : (compressOne a p e).args = adjustLp a br := by
    rw [compressOne, if_neg (by rw [hex]; simp)]
    simp [hpd, hbr]
    split_ifs <;> rfl
  have hlp8 : (adjustLp a br).lp = some 8000 := by
    rw [adjustLp, if_pos ⟨hv, h24, hlp⟩]
  rw [hargs]
  exact ⟨hlp8, runBatch_lp8000 p rest _ hlp8⟩

/-- C9 witness: a voice-preset run whose first file resolves to 20000
bps locks the low-pass at 8000 Hz for the rest of the batch. -/
theorem lowpass_frame_c9_wit :
    aB20.preset = PresetName.voice ∧ aB20.lp = none ∧
    (envOk 100).inputExists = true ∧
    probeOf (envOk 100) = Except.ok 100 ∧
    resolveBitrate aB20 voicePreset 100 = Except.ok 20000 ∧
    (20000 : ℤ) ≤ 24000 ∧
    (compressOne aB20 voicePreset (envOk 100)).args.lp = some 8000 ∧
    lpLockedB (runBatch (compressOne aB20 voicePreset (envOk 100)).args voicePreset
      [envOk 10]).traces = true := by
  have h := lowpass_frame_c9 aB20 voicePreset (envOk 100) [envOk 10] 100 20000
    rfl rfl rfl (by decide) (by decide) (by decide)
  exact ⟨rfl, rfl, rfl, by decide, by decide, by decide, h.1, h.2⟩

theorem digit_not_space (c : Char) (h : c.isDigit = true) : isPySpace c = false := by
  rw [isPySpace]
  simp only [decide_eq_false_iff_not]
  intro hor
  rcases hor with h1 | h1 | h1 | h1 | h1 | h1 <;> subst h1 <;> exact absurd h (by decide)

theorem takeWhile_digit_append (cs tail : List Char) (h : ∀ c ∈ cs, c.isDigit = true) :
    List.takeWhile Char.isDigit (cs ++ tail) = cs ++ List.takeWhile Char.isDigit tail := by
  induction cs with
  | nil => simp
  | cons c t ih =>
    have hc := h c (by simp)
    simp [List.takeWhile_cons, hc, ih (fun x hx => h x (by simp [hx]))]

theorem dropWhile_digit_append (cs tail : List Char) (h : ∀ c ∈ cs, c.isDigit = true) :
    List.dropWhile Char.isDigit (cs ++ tail) = List.dropWhile Char.isDigit tail := by
  induction cs with
  | nil => simp
  | cons c t ih =>
    have hc := h c (by simp)
    simp [List.dropWhile_cons, hc, ih (fun x hx => h x (by simp [hx]))]

theorem dropWhile_space_head_digit (c : Char) (t : List Char) (h : c.isDigit = true) :
    List.dropWhile isPySpace (c :: t) = c :: t := by
  simp [List.dropWhile_cons, digit_not_space c h]

theorem parseBitrate_digits (cs : List Char) (h1 : ¬ cs = [])
    (h2 : ∀ c ∈ cs, c.isDigit = true) :
    parseBitrate (String.mk cs) = some (digitsToNat cs) ∧
    parseBitrate (String.mk (cs ++ ['k'])) = some (digitsToNat cs) := by
  obtain ⟨c, t, rfl⟩ := List.exists_cons_of_ne_nil h1
  have hc := h2 c (by simp)
  constructor
  · rw [parseBitrate]
    have hdata : (String.mk (c :: t)).data = c :: t := rfl
    rw [hdata, dropWhile_space_head_digit c t hc]
    have htk : List.takeWhile Char.isDigit (c :: t) = c :: t := by
      have := takeWhile_digit_append (c :: t) [] h2
      simpa using this
    have hdr : List.dropWhile Char.isDigit (c :: t) = [] := by
      have := dropWhile_digit_append (c :: t) [] h2
      simpa using this
    rw [htk, hdr]
    simp
  · rw [parseBitrate]
    have hdata : (String.mk ((c :: t) ++ ['k'])).data = c :: (t ++ ['k']) := rfl
    rw [hdata, dropWhile_space_head_digit c (t ++ ['k']) hc]
    have htk : List.takeWhile Char.isDigit (c :: (t ++ ['k'])) = c :: t := by
      have := takeWhile_digit_append (c :: t) ['k'] h2
      simpa using this
    have hdr : List.dropWhile Char.isDigit (c :: (t ++ ['k'])) = ['k'] := by
      have := dropWhile_digit_append (c :: t) ['k'] h2
      simpa using this
    rw [htk, hdr]
    have hk : List.dropWhile isPySpace ['k'] = ['k'] := by decide
    simp [hk]

/-- C10: an explicit bitrate string of bare digits and the same digits
followed by k both resolve to the digit value times 1000 bits/sec. -/
theorem bitrate_suffix_c10 (cs : List Char) (a1 a2 : Args) (p : Preset) (d : ℚ)
    (h1 : ¬ cs = []) (h2 : ∀ c ∈ cs, c.isDigit = true)
    (ht1 : a1.ts = none) (hb1 : a1.b = some (String.mk cs))
    (ht2 : a2.ts = none) (hb2 : a2.b = some (String.mk (cs ++ ['k']))) :
    resolveBitrate a1 p d = Except.ok ((digitsToNat cs : ℤ) * 1000) ∧
    resolveBitrate a2 p d = Except.ok ((digitsToNat cs : ℤ) * 1000) := by
  obtain ⟨hp1, hp2⟩ := parseBitrate_digits cs h1 h2
  have hne1 : ¬ String.mk cs = "" := by
    intro h
    exact h1 (by simpa using congrArg String.data h)
  have hne2 : ¬ String.mk (cs ++ ['k']) = "" := by
    intro h
    have := congrArg String.data h
    simp at this
  constructor
  · rw [resolveBitrate_notTs a1 p d (by simp [tsTruthy, ht1]) _ hb1 hne1, hp1]
  · rw [resolveBitrate_notTs a2 p d (by simp [tsTruthy, ht2]) _ hb2 hne2, hp2]

/-- C10 witness: the strings 32 and 32k both resolve to 32000 bits/sec. -/
theorem bitrate_suffix_c10_wit :
    aB32.b = some (String.mk ['3', '2']) ∧
    aB32k.b = some (String.mk (['3', '2'] ++ ['k'])) ∧
    resolveBitrate aB32 voicePreset 1 = Except.ok 32000 ∧
    resolveBitrate aB32k voicePreset 1 = Except.ok 32000 := by
  have h := bitrate_suffix_c10 ['3', '2'] aB32 aB32k voicePreset 1
    (by decide) (by decide) rfl (by decide) rfl (by decide)
  have hv : ((digitsToNat ['3', '2'] : ℤ) * 1000) = 32000 := by decide
  rw [hv] at h
  exact ⟨by decide, by decide, h.1, h.2⟩

end TinyAudio
